import Mathlib

/-!
Verification of the batch orchestration and delivery-failover logic of
`scripts/batch_stock_llm_analyzer.py`.

The embedding below models the control flow of:
  * `BatchStockLLMAnalyzer._is_rate_limit_error` / `_is_quota_exceeded_error`
    (case-insensitive substring classification),
  * `BatchStockLLMAnalyzer._analyze_with_retry` (the per-job retry loop with
    exponential and rate-limited backoff and the quota short-circuit),
  * `BatchStockLLMAnalyzer.run_batch_analysis` (batch partitioning, the
    quota stop, and accumulation of `self.results`),
  * `BatchStockLLMAnalyzer._generate_summary`,
  * `EmailSender.send_email` (the ordered SMTP configuration failover).

The external analysis engine (the body of `_analyze_single_stock`, which
wraps the opaque `TradingAgentsGraph` call) is abstracted as a per-attempt
oracle `engine : Nat → AttemptResult`: an attempt either returns a
`StockAnalysisResult`-shaped reply (possibly with its `error` field set,
matching the `except` clause inside `_analyze_single_stock`) or raises an
exception with a message (the case handled by the `except` clause of
`_analyze_with_retry`).  Sleeps are modelled by accumulating their argument
into a `waited` counter; the number of engine invocations is recorded in an
`attempts` counter and, at batch level, in a ghost `log` field.
-/

namespace BatchAnalyzer

/-! ### Substring matching (Python's `in` on lowered strings) -/

/-- `listStartsWith needle hay`: `needle` is an initial segment of `hay`. -/
def listStartsWith : List Char → List Char → Bool
  | [], _ => true
  | _ :: _, [] => false
  | a :: as, b :: bs => a == b && listStartsWith as bs

/-- `listContainsSeq needle hay`: `needle` occurs contiguously inside `hay`. -/
def listContainsSeq (needle : List Char) : List Char → Bool
  | [] => needle.isEmpty
  | b :: bs => listStartsWith needle (b :: bs) || listContainsSeq needle bs

/-- Python's `needle in hay` for strings. -/
def strContains (hay needle : String) : Bool :=
  listContainsSeq needle.toList hay.toList

/-- Python's `str.lower` (character-wise, as `String.toLower`). -/
def strToLower (s : String) : String :=
  String.mk (s.toList.map Char.toLower)

/-! ### Error classification (`_is_rate_limit_error`, `_is_quota_exceeded_error`) -/

/-- Keyword set of `_is_rate_limit_error`. -/
def rateLimitIndicators : List String :=
  ["rate limit", "rate_limit", "too many requests", "429",
   "quota exceeded", "quota_exceeded", "throttled",
   "api limit", "api_limit", "request limit"]

/-- Keyword set of `_is_quota_exceeded_error`. -/
def quotaExceededIndicators : List String :=
  ["quota exceeded", "quota_exceeded", "exceeded your current quota",
   "limit: 200", "free_tier_requests"]

/-- `BatchStockLLMAnalyzer._is_rate_limit_error`. -/
def isRateLimitError (msg : String) : Bool :=
  rateLimitIndicators.any (fun k => strContains (strToLower msg) k)

/-- `BatchStockLLMAnalyzer._is_quota_exceeded_error`. -/
def isQuotaExceededError (msg : String) : Bool :=
  quotaExceededIndicators.any (fun k => strContains (strToLower msg) k)

/-! ### Data model -/

/-- The `StockAnalysisResult` dataclass.  Time stamps are dropped (pure model);
`price_stats` is reduced to the two entries `_generate_summary` reads
(`price_volatility`, defaulting to 0, and `price_range` whose truthiness
is tested, with its `min`/`max` entries). -/
structure StockAnalysisResult where
  symbol : String
  market_type : String
  price_volatility : ℚ
  price_range : Option (ℚ × ℚ)
  llm_insights : Option String
  error : Option String
deriving DecidableEq

/-- Python truthiness of the `error` field: `None` and `""` are falsy. -/
def errIsSet : Option String → Bool
  | none => false
  | some s => !s.isEmpty

/-- The symbol-independent payload of one `_analyze_single_stock` call:
everything that call produces besides the symbol it is handed (every return
path of `_analyze_single_stock` stores the input symbol unchanged). -/
structure EngineReply where
  market_type : String
  price_volatility : ℚ
  price_range : Option (ℚ × ℚ)
  llm_insights : Option String
  error : Option String
deriving DecidableEq

/-- Rebuild the `StockAnalysisResult` that `_analyze_single_stock` returns. -/
def replyResult (sym : String) (r : EngineReply) : StockAnalysisResult :=
  ⟨sym, r.market_type, r.price_volatility, r.price_range, r.llm_insights, r.error⟩

/-- Behaviour of one attempt of the abstract engine, as observed by
`_analyze_with_retry`: either `_analyze_single_stock` returns normally
(its own `except` clause turns internal exceptions into a reply whose
`error` field is set), or an exception propagates into the retry loop's
`except` clause. -/
inductive AttemptResult where
  | returned (r : EngineReply)
  | raised (msg : String)

/-- A successful reply with no interesting statistics, used as a concrete
engine behaviour in the evaluations below. -/
def okReply : EngineReply :=
  { market_type := "美股", price_volatility := 0, price_range := none,
    llm_insights := some "ok", error := none }

/-! ### `_analyze_with_retry` -/

/-- Result of `_analyze_with_retry` plus instrumentation: `attempts` counts
engine invocations, `waited` sums the arguments of every `time.sleep`. -/
structure RetryOutcome where
  result : StockAnalysisResult
  attempts : Nat
  waited : Nat
deriving DecidableEq

/-- The failure-shaped `StockAnalysisResult` built inside
`_analyze_with_retry` / `run_batch_analysis` (market type `"unknown"`,
empty statistics, the given error message). -/
def failedResult (sym e : String) : StockAnalysisResult :=
  { symbol := sym, market_type := "unknown", price_volatility := 0,
    price_range := none, llm_insights := none, error := some e }

/-- The message `f"重试{max_retries}次后仍失败: {last_error}"`. -/
def retryFailMsg (n : Nat) (lastError : String) : String :=
  "重试" ++ toString n ++ "次后仍失败: " ++ lastError

/-- The message `f"配额超限: {error_str}"`. -/
def quotaErrMsg (m : String) : String := "配额超限: " ++ m

/-- The placeholder error `"配额超限，未处理"`. -/
def quotaSkipMsg : String := "配额超限，未处理"

/-- The loop body of `_analyze_with_retry`, by recursion on the number of
remaining iterations of `for attempt in range(self.max_retries + 1)`.
`attempt + remaining = maxRetries + 1` at every call. -/
def analyzeWithRetryGo (sym : String) (maxRetries delay : Nat)
    (engine : Nat → AttemptResult) :
    Nat → Nat → String → Nat → Nat → RetryOutcome
  | _, 0, lastError, calls, waited =>
    ⟨failedResult sym (retryFailMsg maxRetries lastError), calls, waited⟩
  | attempt, remaining + 1, lastError, calls, waited =>
    let waited1 := waited + (if 0 < attempt then delay * Nat.pow 2 attempt else 0)
    match engine attempt with
    | .returned r =>
      if errIsSet r.error then
        analyzeWithRetryGo sym maxRetries delay engine (attempt + 1) remaining
          (r.error.getD "") (calls + 1) waited1
      else
        ⟨replyResult sym r, calls + 1, waited1⟩
    | .raised m =>
      if isQuotaExceededError m then
        ⟨failedResult sym (quotaErrMsg m), calls + 1, waited1⟩
      else if isRateLimitError m then
        analyzeWithRetryGo sym maxRetries delay engine (attempt + 1) remaining
          m (calls + 1)
          (waited1 + (if attempt < maxRetries then delay * 5 * Nat.pow 2 attempt else 0))
      else
        analyzeWithRetryGo sym maxRetries delay engine (attempt + 1) remaining
          m (calls + 1)
          (waited1 + (if attempt < maxRetries then delay else 0))

/-- `BatchStockLLMAnalyzer._analyze_with_retry`. -/
def analyzeWithRetry (sym : String) (maxRetries delay : Nat)
    (engine : Nat → AttemptResult) : RetryOutcome :=
  analyzeWithRetryGo sym maxRetries delay engine 0 (maxRetries + 1) "" 0 0

/-! ### `run_batch_analysis` -/

/-- The run state: `self.results`, the two counters, and a ghost `log`
recording, per `_analyze_with_retry` invocation, the 0-based global job
position and the number of engine attempts it consumed. -/
structure BatchState where
  results : List StockAnalysisResult
  successful : Nat
  failed : Nat
  log : List (Nat × Nat)
deriving DecidableEq

/-- The placeholder result appended for each remaining symbol when a quota
error stops the batch. -/
def placeholderResult (sym : String) : StockAnalysisResult :=
  failedResult sym quotaSkipMsg

/-- The inner loop `for i, symbol in enumerate(symbol_batch, 1)` of
`run_batch_analysis`.  The quota branch appends placeholders for
`self.config.symbols[global_idx:]` and `break`s — which, exactly as in the
source, skips `self.results.append(result)` for the current job and ends
only this inner loop. -/
def runBatchInner (maxRetries delay : Nat) (stopOnQuota : Bool)
    (symbols : List String) (engine : Nat → Nat → AttemptResult)
    (batchSize bIdx : Nat) : List String → Nat → BatchState → BatchState
  | [], _, st => st
  | sym :: rest, i, st =>
    let globalIdx := (bIdx - 1) * batchSize + i
    let out := analyzeWithRetry sym maxRetries delay (engine (globalIdx - 1))
    let st1 := { st with log := st.log ++ [(globalIdx - 1, out.attempts)] }
    if errIsSet out.result.error then
      let st2 := { st1 with failed := st1.failed + 1 }
      if stopOnQuota && isQuotaExceededError (out.result.error.getD "") then
        { st2 with
          results := st2.results ++ (symbols.drop globalIdx).map placeholderResult }
      else
        runBatchInner maxRetries delay stopOnQuota symbols engine batchSize bIdx
          rest (i + 1) { st2 with results := st2.results ++ [out.result] }
    else
      runBatchInner maxRetries delay stopOnQuota symbols engine batchSize bIdx
        rest (i + 1)
        { st1 with successful := st1.successful + 1,
                   results := st1.results ++ [out.result] }

/-- The outer loop over `symbol_batches`.  Note that it continues with the
next batch unconditionally: the quota `break` in the source only exits the
inner loop. -/
def runBatchOuter (maxRetries delay : Nat) (stopOnQuota : Bool)
    (symbols : List String) (engine : Nat → Nat → AttemptResult)
    (batchSize : Nat) : List (List String) → Nat → BatchState → BatchState
  | [], _, st => st
  | batch :: rest, bIdx, st =>
    runBatchOuter maxRetries delay stopOnQuota symbols engine batchSize
      rest (bIdx + 1)
      (runBatchInner maxRetries delay stopOnQuota symbols engine batchSize bIdx
        batch 1 st)

/-- Slicing `symbols[i:i+bs] for i in range(0, len(symbols), bs)`, by fuel
(the fuel `symbols.length` suffices whenever `bs ≥ 1`). -/
def chunksGo (bs : Nat) : Nat → List String → List (List String)
  | _, [] => []
  | 0, _ :: _ => []
  | fuel + 1, a :: l => (a :: l).take bs :: chunksGo bs fuel ((a :: l).drop bs)

/-- The `symbol_batches` list of `run_batch_analysis`. -/
def symbolBatches (bs : Nat) (symbols : List String) : List (List String) :=
  chunksGo bs symbols.length symbols

/-- `BatchStockLLMAnalyzer.run_batch_analysis`, restricted to the job loop
(summary generation, persistence and mailing happen afterwards on the
returned state).  Returns `none` when `batch_size = 0` — for an empty symbol
list (or `max_concurrent = 0`) the source raises `ValueError` from
`range(0, 0, 0)`. -/
def runBatchAnalysis (maxConcurrent maxRetries delay : Nat) (stopOnQuota : Bool)
    (symbols : List String) (engine : Nat → Nat → AttemptResult) :
    Option BatchState :=
  let batchSize := if maxConcurrent ≤ symbols.length then maxConcurrent else symbols.length
  if batchSize = 0 then none
  else
    some (runBatchOuter maxRetries delay stopOnQuota symbols engine batchSize
      (symbolBatches batchSize symbols) 1 ⟨[], 0, 0, []⟩)

/-! ### `_generate_summary` -/

/-- The dictionary returned by `_generate_summary`: either the
`{"error": "没有成功的分析结果"}` marker or the statistics record. -/
inductive Summary where
  | noSuccess (msg : String)
  | stats (market_distribution : List (String × Nat)) (average_volatility : ℚ)
      (top_price_ranges : List (String × ℚ × ℚ)) (total_analyzed : Nat)
      (analysis_success_rate : ℚ)
deriving DecidableEq

/-- `market_distribution[market] = market_distribution.get(market, 0) + 1`
with dict insertion order. -/
def bumpCount : List (String × Nat) → String → List (String × Nat)
  | [], k => [(k, 1)]
  | (k1, c) :: rest, k =>
    if k1 = k then (k1, c + 1) :: rest else (k1, c) :: bumpCount rest k

/-- Python division by a length: raises `ZeroDivisionError` (modelled `none`)
when the divisor is zero. -/
def qdiv (a : ℚ) (n : Nat) : Option ℚ :=
  if n = 0 then none else some (a / n)

/-- `price_ranges.sort(key=lambda x: x['max'], reverse=True)` — a stable
descending sort on the `max` component. -/
def sortByMaxDesc (l : List (String × ℚ × ℚ)) : List (String × ℚ × ℚ) :=
  List.insertionSort (fun x y => y.2.2 ≤ x.2.2) l

/-- `BatchStockLLMAnalyzer._generate_summary` over `self.results`; `none`
would mean a `ZeroDivisionError`. -/
def generateSummary (results : List StockAnalysisResult) : Option Summary :=
  let successful := results.filter (fun r => !errIsSet r.error)
  if successful.isEmpty then some (Summary.noSuccess "没有成功的分析结果")
  else
    let md := successful.foldl (fun acc r => bumpCount acc r.market_type) []
    let totalVol := successful.foldl (fun acc r => acc + r.price_volatility) (0 : ℚ)
    let ranges := successful.filterMap
      (fun r => r.price_range.map (fun pr => (r.symbol, pr.1, pr.2)))
    match qdiv totalVol successful.length,
          qdiv (successful.length : ℚ) results.length with
    | some avg, some srate =>
      some (Summary.stats md avg ((sortByMaxDesc ranges).take 5)
        successful.length (srate * 100))
    | _, _ => none

/-! ### `EmailSender.send_email` -/

/-- One SMTP candidate configuration (`port`, `use_ssl`, `use_tls`, `name`). -/
structure SMTPConfig where
  port : Nat
  use_ssl : Bool
  use_tls : Bool
  name : String
deriving DecidableEq

/-- Outcome of one configuration attempt, as dispatched by the `except`
clauses of `send_email`: success (`return True`),
`smtplib.SMTPAuthenticationError` (`return False`), or any other failure
(`SMTPException`/`ConnectionError`/`OSError` or a generic exception — both
`continue`). -/
inductive DeliveryAttemptResult where
  | success
  | authFailure
  | transientFailure (msg : String)

/-- The name `f"原始配置({self.smtp_port})"`. -/
def origConfigName (p : Nat) : String := "原始配置(" ++ toString p ++ ")"

/-- The candidate configuration list of `send_email`: the fixed three-entry
list when `"163.com" in self.smtp_server`, otherwise the single configured
combination. -/
def buildConfigs (server : String) (port : Nat) (ssl tls : Bool) :
    List SMTPConfig :=
  if strContains server "163.com" then
    [⟨465, true, false, "SSL(465)"⟩,
     ⟨25, false, false, "无加密(25)"⟩,
     ⟨587, false, true, "TLS(587)"⟩]
  else
    [⟨port, ssl, tls, origConfigName port⟩]

/-- The `for config in configs` loop of `send_email`.  Returns the overall
boolean together with the list of configurations actually attempted,
in order. -/
def sendEmailGo (transport : SMTPConfig → DeliveryAttemptResult) :
    List SMTPConfig → List SMTPConfig → Bool × List SMTPConfig
  | [], tried => (false, tried)
  | c :: rest, tried =>
    match transport c with
    | .success => (true, tried ++ [c])
    | .authFailure => (false, tried ++ [c])
    | .transientFailure _ => sendEmailGo transport rest (tried ++ [c])

/-- `EmailSender.send_email` (message assembly does not affect control flow;
`subject`/`body` are carried only to mirror the signature). -/
def sendEmail (enabled : Bool) (server : String) (port : Nat) (ssl tls : Bool)
    (subject body : String) (transport : SMTPConfig → DeliveryAttemptResult) :
    Bool × List SMTPConfig :=
  if enabled then sendEmailGo transport (buildConfigs server port ssl tls) []
  else (false, [])

/-! ### Concrete engine behaviours used in the evaluations -/

/-- Job 0 raises `"quota exceeded"` on every attempt; every other job
succeeds immediately. -/
def quotaFirstEngine : Nat → Nat → AttemptResult :=
  fun j _ => if j = 0 then .raised "quota exceeded" else .returned okReply

/-- Attempts 0 and 1 raise `"rate limit"`; attempt 2 succeeds. -/
def rateThenOkEngine : Nat → AttemptResult :=
  fun a => if a < 2 then .raised "rate limit" else .returned okReply

/-! ### Lemmas about `_analyze_with_retry` -/

/-- One-step unfolding of the retry loop at a zero iteration budget. -/
theorem analyzeWithRetryGo_zero (sym : String) (maxRetries delay : Nat)
    (engine : Nat → AttemptResult) (attempt : Nat) (lastE : String)
    (calls waited : Nat) :
    analyzeWithRetryGo sym maxRetries delay engine attempt 0 lastE calls waited
      = ⟨failedResult sym (retryFailMsg maxRetries lastE), calls, waited⟩ := rfl

/-- One-step unfolding of the retry loop at a positive iteration budget. -/
theorem analyzeWithRetryGo_succ (sym : String) (maxRetries delay : Nat)
    (engine : Nat → AttemptResult) (attempt remaining : Nat) (lastE : String)
    (calls waited : Nat) :
    analyzeWithRetryGo sym maxRetries delay engine attempt (remaining + 1)
        lastE calls waited
      = (let waited1 := waited + (if 0 < attempt then delay * Nat.pow 2 attempt else 0)
         match engine attempt with
         | .returned r =>
           if errIsSet r.error then
             analyzeWithRetryGo sym maxRetries delay engine (attempt + 1)
               remaining (r.error.getD "") (calls + 1) waited1
           else
             ⟨replyResult sym r, calls + 1, waited1⟩
         | .raised m =>
           if isQuotaExceededError m then
             ⟨failedResult sym (quotaErrMsg m), calls + 1, waited1⟩
           else if isRateLimitError m then
             analyzeWithRetryGo sym maxRetries delay engine (attempt + 1)
               remaining m (calls + 1)
               (waited1 + (if attempt < maxRetries then delay * 5 * Nat.pow 2 attempt else 0))
           else
             analyzeWithRetryGo sym maxRetries delay engine (attempt + 1)
               remaining m (calls + 1)
               (waited1 + (if attempt < maxRetries then delay else 0))) := rfl

/-- If every attempt from `attempt` through `maxRetries` raises a message
matching neither keyword set, the remaining loop iterations all run, each
consuming one engine call, and the final result is the exhaustion failure
recording the message of attempt `maxRetries`. -/
theorem analyzeWithRetryGo_raised_fail (sym : String) (maxRetries delay : Nat)
    (engine : Nat → AttemptResult) (m : String)
    (hlast : engine maxRetries = .raised m) :
    ∀ r attempt lastE calls waited, attempt + r = maxRetries →
      (∀ i, attempt ≤ i → i ≤ maxRetries →
        ∃ e, engine i = .raised e ∧ isQuotaExceededError e = false ∧
          isRateLimitError e = false) →
      (analyzeWithRetryGo sym maxRetries delay engine attempt (r + 1) lastE calls
          waited).result = failedResult sym (retryFailMsg maxRetries m) ∧
      (analyzeWithRetryGo sym maxRetries delay engine attempt (r + 1) lastE calls
          waited).attempts = calls + (r + 1) := by
  intro r
  induction r with
  | zero =>
    intro attempt lastE calls waited hsum hfail
    obtain ⟨e, he, hq, hr⟩ := hfail attempt le_rfl (by omega)
    have hatt : attempt = maxRetries := by omega
    subst hatt
    injection he.symm.trans hlast with hem
    subst hem
    rw [analyzeWithRetryGo_succ, he]
    simp only [hq, hr, Bool.false_eq_true, if_false]
    rw [analyzeWithRetryGo_zero]
    exact ⟨rfl, rfl⟩
  | succ n ih =>
    intro attempt lastE calls waited hsum hfail
    obtain ⟨e, he, hq, hr⟩ := hfail attempt le_rfl (by omega)
    rw [analyzeWithRetryGo_succ, he]
    simp only [hq, hr, Bool.false_eq_true, if_false]
    obtain ⟨h1, h2⟩ := ih (attempt + 1) e (calls + 1)
      ((waited + (if 0 < attempt then delay * Nat.pow 2 attempt else 0)) +
        (if attempt < maxRetries then delay else 0))
      (by omega) (fun i hi hle => hfail i (by omega) hle)
    exact ⟨h1, by omega⟩

/-- Every exit path of the retry loop returns a result carrying the input
symbol, exactly as every return path of `_analyze_single_stock` /
`_analyze_with_retry` stores the `symbol` argument. -/
theorem analyzeWithRetryGo_symbol (sym : String) (maxRetries delay : Nat)
    (engine : Nat → AttemptResult) :
    ∀ remaining attempt lastE calls waited,
      (analyzeWithRetryGo sym maxRetries delay engine attempt remaining lastE
        calls waited).result.symbol = sym := by
  intro remaining
  induction remaining with
  | zero => intro attempt lastE calls waited; rfl
  | succ n ih =>
    intro attempt lastE calls waited
    rw [analyzeWithRetryGo_succ]
    cases h : engine attempt with
    | returned r =>
      dsimp only
      split
      · exact ih (attempt + 1) (r.error.getD "") (calls + 1) _
      · rfl
    | raised mm =>
      dsimp only
      split
      · rfl
      · split
        · exact ih (attempt + 1) mm (calls + 1) _
        · exact ih (attempt + 1) mm (calls + 1) _

/-! ### Claim C5 -/

/-- C5: a job whose every attempt raises an error matched by neither the
rate-limit nor the quota keyword set is attempted exactly
`max_retries + 1` times and finalizes with the exhaustion failure
`重试{max_retries}次后仍失败: {last_error}` recording the last failure. -/
theorem analyzeWithRetry_transient_exhausts (sym : String) (maxRetries delay : Nat)
    (engine : Nat → AttemptResult) (m : String)
    (hfail : ∀ i, i ≤ maxRetries → ∃ e, engine i = .raised e ∧
      isQuotaExceededError e = false ∧ isRateLimitError e = false)
    (hlast : engine maxRetries = .raised m) :
    (analyzeWithRetry sym maxRetries delay engine).attempts = maxRetries + 1 ∧
    (analyzeWithRetry sym maxRetries delay engine).result
      = failedResult sym (retryFailMsg maxRetries m) := by
  obtain ⟨h1, h2⟩ := analyzeWithRetryGo_raised_fail sym maxRetries delay engine m
    hlast maxRetries 0 "" 0 0 (by omega) (fun i _ hle => hfail i hle)
  exact ⟨by rw [analyzeWithRetry, h2]; omega, by rw [analyzeWithRetry, h1]⟩

/-- C5 witness: with `max_retries = 1`, an engine raising `"boom"` on every
attempt is attempted twice and finalizes `重试1次后仍失败: boom`. -/
theorem analyzeWithRetry_transient_exhausts_witness :
    (analyzeWithRetry "AAPL" 1 3 (fun _ => .raised "boom")).attempts = 1 + 1 ∧
    (analyzeWithRetry "AAPL" 1 3 (fun _ => .raised "boom")).result
      = failedResult "AAPL" (retryFailMsg 1 "boom") :=
  analyzeWithRetry_transient_exhausts "AAPL" 1 3 (fun _ => .raised "boom") "boom"
    (fun i _ => ⟨"boom", rfl, by decide, by decide⟩) rfl

/-! ### Claim C6 -/

/-- C6 counterexample: with `max_retries = 2` and
`delay_between_requests = 1`, attempts 0 and 1 raising `"rate limit"` and
attempt 2 succeeding, the outcome is a success but the accumulated sleep
total is not the claimed 15 time units. -/
theorem rateLimit_backoff_counterexample :
    (analyzeWithRetry "S" 2 1 rateThenOkEngine).result.error = none ∧
    (analyzeWithRetry "S" 2 1 rateThenOkEngine).waited ≠ 15 := by decide

/-- C6 amended: in that scenario the job sleeps the two rate-limit backoffs
`1*5*2^0 + 1*5*2^1 = 15` and, in addition, the generic pre-retry waits
`1*2^1 + 1*2^2 = 6` that `_analyze_with_retry` performs before attempts 1
and 2, for a total of 21 time units before the success; the outcome is a
success reached on the third attempt. -/
theorem rateLimit_backoff_total :
    (analyzeWithRetry "S" 2 1 rateThenOkEngine).waited
        = 1 * 5 * Nat.pow 2 0 + 1 * Nat.pow 2 1 + 1 * 5 * Nat.pow 2 1 + 1 * Nat.pow 2 2 ∧
    (analyzeWithRetry "S" 2 1 rateThenOkEngine).waited = 21 ∧
    (analyzeWithRetry "S" 2 1 rateThenOkEngine).result.error = none ∧
    (analyzeWithRetry "S" 2 1 rateThenOkEngine).attempts = 3 := by decide

/-! ### Claims C1, C2, C3: the quota circuit breaker at batch level -/

/-- C1: with two jobs in two size-1 batches and job `"A"` raising
`"quota exceeded"` on its first attempt, the run attempts `"A"` exactly once
(log entry `(0, 1)`), but its `Failed(配额超限: …)` outcome is never
appended to the results (the quota `break` skips the append), and job
`"B"` is still submitted to the engine in the next batch (log entry
`(1, 1)`), receiving both a placeholder and a real outcome — so the breaker
neither finalizes the quota job nor halts further submission. -/
theorem quotaFirstAttempt_run_eval :
    Option.map (fun st => (st.log, st.results.map (fun r => (r.symbol, r.error))))
      (runBatchAnalysis 1 2 1 true ["A", "B"] quotaFirstEngine)
    = some ([(0, 1), (1, 1)],
        [("B", some quotaSkipMsg), ("B", none)]) := by decide

/-- C2: with three jobs in three size-1 batches and job `"A"` raising
`"quota exceeded"` on its first attempt, jobs `"B"` and `"C"` are
nevertheless submitted to the engine (log entries `(1, 1)` and `(2, 1)`,
one attempt each) because the quota `break` only exits the inner batch
loop; their placeholder `配额超限，未处理` outcomes are followed by real
engine outcomes. -/
theorem circuitOpen_still_submits_eval :
    Option.map (fun st => (st.log, st.results.map (fun r => (r.symbol, r.error))))
      (runBatchAnalysis 1 0 1 true ["A", "B", "C"] quotaFirstEngine)
    = some ([(0, 1), (1, 1), (2, 1)],
        [("B", some quotaSkipMsg), ("C", some quotaSkipMsg),
         ("B", none), ("C", none)]) := by decide

/-- C3: with two jobs in a single size-2 batch and job `"A"` raising
`"quota exceeded"` on its first attempt, the final results contain exactly
one entry — the placeholder for `"B"` — and no outcome at all for `"A"`:
the quota `break` skips `self.results.append(result)` for the job that
failed, so the run does not produce one `JobOutcome` per input job. -/
theorem quotaJob_outcome_missing_eval :
    Option.map (fun st => (st.log, st.results.map (fun r => (r.symbol, r.error))))
      (runBatchAnalysis 2 0 1 true ["A", "B"] quotaFirstEngine)
    = some ([(0, 1)], [("B", some quotaSkipMsg)]) := by decide

/-! ### Claim C4: ordering of outcomes -/

/-- One-step unfolding of the inner batch loop on an empty batch. -/
theorem runBatchInner_nil (maxRetries delay : Nat) (stopOnQuota : Bool)
    (symbols : List String) (engine : Nat → Nat → AttemptResult)
    (batchSize bIdx i : Nat) (st : BatchState) :
    runBatchInner maxRetries delay stopOnQuota symbols engine batchSize bIdx
      [] i st = st := rfl

/-- One-step unfolding of the inner batch loop on a nonempty batch. -/
theorem runBatchInner_cons (maxRetries delay : Nat) (stopOnQuota : Bool)
    (symbols : List String) (engine : Nat → Nat → AttemptResult)
    (batchSize bIdx : Nat) (sym : String) (rest : List String) (i : Nat)
    (st : BatchState) :
    runBatchInner maxRetries delay stopOnQuota symbols engine batchSize bIdx
        (sym :: rest) i st
      = (let globalIdx := (bIdx - 1) * batchSize + i
         let out := analyzeWithRetry sym maxRetries delay (engine (globalIdx - 1))
         let st1 := { st with log := st.log ++ [(globalIdx - 1, out.attempts)] }
         if errIsSet out.result.error then
           let st2 := { st1 with failed := st1.failed + 1 }
           if stopOnQuota && isQuotaExceededError (out.result.error.getD "") then
             { st2 with
               results := st2.results ++ (symbols.drop globalIdx).map placeholderResult }
           else
             runBatchInner maxRetries delay stopOnQuota symbols engine batchSize
               bIdx rest (i + 1) { st2 with results := st2.results ++ [out.result] }
         else
           runBatchInner maxRetries delay stopOnQuota symbols engine batchSize
             bIdx rest (i + 1)
             { st1 with successful := st1.successful + 1,
                        results := st1.results ++ [out.result] }) := rfl

/-- The result carried back by `_analyze_with_retry` always holds the
symbol that was submitted. -/
theorem analyzeWithRetry_symbol (sym : String) (maxRetries delay : Nat)
    (engine : Nat → AttemptResult) :
    (analyzeWithRetry sym maxRetries delay engine).result.symbol = sym :=
  analyzeWithRetryGo_symbol sym maxRetries delay engine (maxRetries + 1) 0 "" 0 0

/-- If no finalized job error is quota-classified (while the stop flag is
respected), the inner loop appends exactly one outcome per batch element,
in batch order, each carrying its job's symbol. -/
theorem runBatchInner_results_no_trip (maxRetries delay : Nat)
    (stopOnQuota : Bool) (symbols : List String)
    (engine : Nat → Nat → AttemptResult) (batchSize bIdx : Nat)
    (hnoq : ∀ j s, (stopOnQuota && isQuotaExceededError
      ((analyzeWithRetry s maxRetries delay (engine j)).result.error.getD ""))
        = false) :
    ∀ batch i st, ∃ l,
      (runBatchInner maxRetries delay stopOnQuota symbols engine batchSize bIdx
          batch i st).results = st.results ++ l ∧
      l.map StockAnalysisResult.symbol = batch := by
  intro batch
  induction batch with
  | nil => intro i st; exact ⟨[], by rw [runBatchInner_nil]; simp, rfl⟩
  | cons sym rest ih =>
    intro i st
    rw [runBatchInner_cons]
    dsimp only
    cases hE : errIsSet (analyzeWithRetry sym maxRetries delay
        (engine ((bIdx - 1) * batchSize + i - 1))).result.error with
    | false =>
      simp only [hE, Bool.false_eq_true, if_false]
      obtain ⟨l, h1, h2⟩ := ih (i + 1)
        { st with
          log := st.log ++ [((bIdx - 1) * batchSize + i - 1,
            (analyzeWithRetry sym maxRetries delay
              (engine ((bIdx - 1) * batchSize + i - 1))).attempts)],
          successful := st.successful + 1,
          results := st.results ++ [(analyzeWithRetry sym maxRetries delay
            (engine ((bIdx - 1) * batchSize + i - 1))).result] }
      refine ⟨(analyzeWithRetry sym maxRetries delay
        (engine ((bIdx - 1) * batchSize + i - 1))).result :: l, ?_, ?_⟩
      · rw [h1]; simp
      · simp [h2, analyzeWithRetry_symbol]
    | true =>
      simp only [hE, if_true, hnoq ((bIdx - 1) * batchSize + i - 1) sym,
        Bool.false_eq_true, if_false]
      obtain ⟨l, h1, h2⟩ := ih (i + 1)
        { st with
          log := st.log ++ [((bIdx - 1) * batchSize + i - 1,
            (analyzeWithRetry sym maxRetries delay
              (engine ((bIdx - 1) * batchSize + i - 1))).attempts)],
          failed := st.failed + 1,
          results := st.results ++ [(analyzeWithRetry sym maxRetries delay
            (engine ((bIdx - 1) * batchSize + i - 1))).result] }
      refine ⟨(analyzeWithRetry sym maxRetries delay
        (engine ((bIdx - 1) * batchSize + i - 1))).result :: l, ?_, ?_⟩
      · rw [h1]; simp
      · simp [h2, analyzeWithRetry_symbol]

/-- One-step unfolding of the outer loop on an empty batch list. -/
theorem runBatchOuter_nil (maxRetries delay : Nat) (stopOnQuota : Bool)
    (symbols : List String) (engine : Nat → Nat → AttemptResult)
    (batchSize bIdx : Nat) (st : BatchState) :
    runBatchOuter maxRetries delay stopOnQuota symbols engine batchSize
      [] bIdx st = st := rfl

/-- One-step unfolding of the outer loop on a nonempty batch list. -/
theorem runBatchOuter_cons (maxRetries delay : Nat) (stopOnQuota : Bool)
    (symbols : List String) (engine : Nat → Nat → AttemptResult)
    (batchSize : Nat) (batch : List String) (rest : List (List String))
    (bIdx : Nat) (st : BatchState) :
    runBatchOuter maxRetries delay stopOnQuota symbols engine batchSize
        (batch :: rest) bIdx st
      = runBatchOuter maxRetries delay stopOnQuota symbols engine batchSize
          rest (bIdx + 1)
          (runBatchInner maxRetries delay stopOnQuota symbols engine batchSize
            bIdx batch 1 st) := rfl

/-- Under the same no-quota hypothesis the outer loop appends one outcome
per job of every batch, in order. -/
theorem runBatchOuter_results_no_trip (maxRetries delay : Nat)
    (stopOnQuota : Bool) (symbols : List String)
    (engine : Nat → Nat → AttemptResult) (batchSize : Nat)
    (hnoq : ∀ j s, (stopOnQuota && isQuotaExceededError
      ((analyzeWithRetry s maxRetries delay (engine j)).result.error.getD ""))
        = false) :
    ∀ batches bIdx st, ∃ l,
      (runBatchOuter maxRetries delay stopOnQuota symbols engine batchSize
          batches bIdx st).results = st.results ++ l ∧
      l.map StockAnalysisResult.symbol = batches.flatten := by
  intro batches
  induction batches with
  | nil => intro bIdx st; exact ⟨[], by rw [runBatchOuter_nil]; simp, rfl⟩
  | cons batch rest ih =>
    intro bIdx st
    rw [runBatchOuter_cons]
    obtain ⟨l1, h1, h2⟩ := runBatchInner_results_no_trip maxRetries delay
      stopOnQuota symbols engine batchSize bIdx hnoq batch 1 st
    obtain ⟨l2, g1, g2⟩ := ih (bIdx + 1)
      (runBatchInner maxRetries delay stopOnQuota symbols engine batchSize bIdx
        batch 1 st)
    refine ⟨l1 ++ l2, ?_, ?_⟩
    · rw [g1, h1]; simp
    · simp [h2, g2, List.flatten_cons]

/-- Slicing with a positive batch size and enough fuel partitions the list:
concatenating the batches gives back the original list. -/
theorem chunksGo_join (bs : Nat) (hbs : 0 < bs) :
    ∀ fuel l, l.length ≤ fuel → (chunksGo bs fuel l).flatten = l := by
  intro fuel
  induction fuel with
  | zero =>
    intro l hl
    cases l with
    | nil => rfl
    | cons a t => simp at hl
  | succ n ih =>
    intro l hl
    cases l with
    | nil => rfl
    | cons a t =>
      have hstep : chunksGo bs (n + 1) (a :: t)
          = (a :: t).take bs :: chunksGo bs n ((a :: t).drop bs) := rfl
      rw [hstep]
      have hdlen : ((a :: t).drop bs).length ≤ n := by
        rw [List.length_drop]
        simp at hl ⊢
        omega
      rw [List.flatten_cons, ih ((a :: t).drop bs) hdlen, List.take_append_drop]

/-- C4 amended: provided the circuit breaker is never tripped — no job's
finalized analysis error is quota-classified while
`stop_on_quota_exceeded` is enabled — and the job list is nonempty with
`max_concurrent ≥ 1` (otherwise the source raises from `range(0, 0, 0)`),
the run produces exactly one outcome per input job, in input order. -/
theorem runBatch_order_no_quota (maxConcurrent maxRetries delay : Nat)
    (stopOnQuota : Bool) (symbols : List String)
    (engine : Nat → Nat → AttemptResult)
    (hmc : 0 < maxConcurrent) (hsy : symbols ≠ [])
    (hnoq : ∀ j s, (stopOnQuota && isQuotaExceededError
      ((analyzeWithRetry s maxRetries delay (engine j)).result.error.getD ""))
        = false) :
    ∃ st, runBatchAnalysis maxConcurrent maxRetries delay stopOnQuota symbols
        engine = some st ∧
      st.results.map StockAnalysisResult.symbol = symbols := by
  have hlen : 0 < symbols.length := List.length_pos.mpr hsy
  rw [runBatchAnalysis]
  rw [if_neg (by split <;> omega)]
  obtain ⟨l, h1, h2⟩ := runBatchOuter_results_no_trip maxRetries delay
    stopOnQuota symbols engine
    (if maxConcurrent ≤ symbols.length then maxConcurrent else symbols.length)
    hnoq
    (symbolBatches
      (if maxConcurrent ≤ symbols.length then maxConcurrent else symbols.length)
      symbols) 1 ⟨[], 0, 0, []⟩
  refine ⟨_, rfl, ?_⟩
  rw [h1]
  simp only [List.nil_append]
  rw [h2, symbolBatches, chunksGo_join _ (by split <;> omega) _ _ le_rfl]

/-- C4 amended witness: three always-successful jobs in batches of two give
outcomes `["X", "Y", "Z"]` in input order. -/
theorem runBatch_order_no_quota_witness :
    ∃ st, runBatchAnalysis 2 1 0 true ["X", "Y", "Z"]
        (fun _ _ => .returned okReply) = some st ∧
      st.results.map StockAnalysisResult.symbol = ["X", "Y", "Z"] :=
  runBatch_order_no_quota 2 1 0 true ["X", "Y", "Z"]
    (fun _ _ => .returned okReply) (by omega) (by decide) (fun j s => rfl)

/-- C4 counterexample: two jobs in two size-1 batches with a quota failure
on job `"A"` yield the outcome symbols `["B", "B"]` — not the input order
`["A", "B"]` (job `"A"` is missing and job `"B"` appears twice). -/
theorem runBatch_order_counterexample :
    Option.map (fun st => st.results.map (fun r => r.symbol))
      (runBatchAnalysis 1 0 1 true ["A", "B"] quotaFirstEngine)
      = some ["B", "B"] ∧
    (["B", "B"] : List String) ≠ ["A", "B"] := by decide

/-! ### Claim C9: totality of `_generate_summary` -/

/-- C9: `_generate_summary` is total — when every result carries an error it
returns the explicit `没有成功的分析结果` marker, and otherwise both
divisions (mean volatility over the successful results, success rate over
all results) have non-zero divisors, so the `ZeroDivisionError` branch
(modelled by `none`) is unreachable. -/
theorem generateSummary_total (results : List StockAnalysisResult) :
    (generateSummary results).isSome = true ∧
    ((∀ r ∈ results, errIsSet r.error = true) →
      generateSummary results = some (Summary.noSuccess "没有成功的分析结果")) := by
  constructor
  · simp only [generateSummary]
    cases hS : (results.filter (fun r => !errIsSet r.error)).isEmpty with
    | true => simp
    | false =>
      simp only [Bool.false_eq_true, if_false]
      have hfil : results.filter (fun r => !errIsSet r.error) ≠ [] := by
        intro h0
        rw [h0] at hS
        simp at hS
      have hlen1 : (results.filter (fun r => !errIsSet r.error)).length ≠ 0 :=
        fun h => hfil (List.length_eq_zero.mp h)
      have hlen2 : results.length ≠ 0 := by
        have := List.length_filter_le (fun r => !errIsSet r.error) results
        omega
      rw [qdiv, qdiv, if_neg hlen1, if_neg hlen2]
      rfl
  · intro hall
    have hnil : results.filter (fun r => !errIsSet r.error) = [] := by
      rw [List.filter_eq_nil_iff]
      intro a ha
      simp [hall a ha]
    simp [generateSummary, hnil]

/-- C9 witness: a single failed result yields the no-success marker (and a
defined summary). -/
theorem generateSummary_total_witness :
    (generateSummary [failedResult "A" "boom"]).isSome = true ∧
    generateSummary [failedResult "A" "boom"]
      = some (Summary.noSuccess "没有成功的分析结果") :=
  ⟨(generateSummary_total [failedResult "A" "boom"]).1,
   (generateSummary_total [failedResult "A" "boom"]).2 (by decide)⟩

/-! ### Claims C7, C8, C10: `send_email` failover -/

/-- One-step unfolding of the configuration loop on an empty list. -/
theorem sendEmailGo_nil (transport : SMTPConfig → DeliveryAttemptResult)
    (tried : List SMTPConfig) :
    sendEmailGo transport [] tried = (false, tried) := rfl

/-- One-step unfolding of the configuration loop on a nonempty list. -/
theorem sendEmailGo_cons (transport : SMTPConfig → DeliveryAttemptResult)
    (c : SMTPConfig) (rest tried : List SMTPConfig) :
    sendEmailGo transport (c :: rest) tried
      = (match transport c with
         | .success => (true, tried ++ [c])
         | .authFailure => (false, tried ++ [c])
         | .transientFailure _ => sendEmailGo transport rest (tried ++ [c])) := rfl

/-- A prefix of configurations that all fail transiently is consumed whole:
the loop walks past it, logging every entry as tried. -/
theorem sendEmailGo_pre_transient (transport : SMTPConfig → DeliveryAttemptResult) :
    ∀ pre, (∀ c ∈ pre, ∃ m, transport c = .transientFailure m) →
      ∀ rest tried, sendEmailGo transport (pre ++ rest) tried
        = sendEmailGo transport rest (tried ++ pre) := by
  intro pre
  induction pre with
  | nil => intro _ rest tried; simp
  | cons c pre' ih =>
    intro hpre rest tried
    obtain ⟨m, hm⟩ := hpre c (List.mem_cons_self c pre')
    rw [List.cons_append, sendEmailGo_cons, hm]
    dsimp only
    rw [ih (fun c' h => hpre c' (List.mem_cons_of_mem _ h)) rest (tried ++ [c]),
      List.append_assoc]
    rfl

/-- C7: an authentication failure short-circuits the configuration list —
whatever configurations follow (even ones that would succeed), the loop
returns overall failure after attempting exactly the transiently-failing
prefix and the authentication-failing configuration. -/
theorem sendEmail_auth_short_circuit
    (transport : SMTPConfig → DeliveryAttemptResult)
    (pre post : List SMTPConfig) (c : SMTPConfig)
    (hpre : ∀ c' ∈ pre, ∃ m, transport c' = .transientFailure m)
    (hc : transport c = .authFailure) :
    sendEmailGo transport (pre ++ c :: post) [] = (false, pre ++ [c]) := by
  rw [sendEmailGo_pre_transient transport pre hpre (c :: post) [],
    sendEmailGo_cons, hc]
  dsimp only
  simp

/-- A transport giving a connection failure on port 25, an authentication
failure on port 465 and success elsewhere. -/
def authAt465Transport : SMTPConfig → DeliveryAttemptResult := fun c =>
  if c.port = 25 then .transientFailure "connection refused"
  else if c.port = 465 then .authFailure
  else .success

/-- The three fixed configurations, named for the witnesses. -/
def smtpPlain25 : SMTPConfig := ⟨25, false, false, "无加密(25)"⟩

def smtpSSL465 : SMTPConfig := ⟨465, true, false, "SSL(465)"⟩

def smtpTLS587 : SMTPConfig := ⟨587, false, true, "TLS(587)"⟩

/-- C7 witness: configs `[transient, auth, would-succeed]` return overall
failure having attempted only the first two. -/
theorem sendEmail_auth_short_circuit_witness :
    sendEmailGo authAt465Transport ([smtpPlain25] ++ smtpSSL465 :: [smtpTLS587]) []
      = (false, [smtpPlain25] ++ [smtpSSL465]) :=
  sendEmail_auth_short_circuit authAt465Transport [smtpPlain25] [smtpTLS587]
    smtpSSL465
    (fun c' h => ⟨"connection refused",
      by rw [show c' = smtpPlain25 by simpa using h]; rfl⟩)
    rfl

/-- The loop returns `true` exactly when, scanning in order, the first
configuration that is not a transient failure is a success. -/
theorem sendEmailGo_fst_true_iff (transport : SMTPConfig → DeliveryAttemptResult) :
    ∀ configs tried, (sendEmailGo transport configs tried).1 = true ↔
      ∃ pre c post, configs = pre ++ c :: post ∧ transport c = .success ∧
        ∀ c' ∈ pre, ∃ m, transport c' = .transientFailure m := by
  intro configs
  induction configs with
  | nil =>
    intro tried
    rw [sendEmailGo_nil]
    constructor
    · intro h; simp at h
    · rintro ⟨pre, c, post, h, -, -⟩
      cases pre <;> simp at h
  | cons c rest ih =>
    intro tried
    rw [sendEmailGo_cons]
    cases hc : transport c with
    | success =>
      dsimp only
      constructor
      · intro _; exact ⟨[], c, rest, rfl, hc, by simp⟩
      · intro _; rfl
    | authFailure =>
      dsimp only
      constructor
      · intro h; simp at h
      · rintro ⟨pre, c', post, heq, hs, hpre⟩
        cases pre with
        | nil =>
          simp only [List.nil_append, List.cons.injEq] at heq
          rw [← heq.1, hc] at hs
          simp at hs
        | cons c0 pre' =>
          simp only [List.cons_append, List.cons.injEq] at heq
          obtain ⟨m, hm⟩ := hpre c0 (List.mem_cons_self _ _)
          rw [← heq.1, hc] at hm
          simp at hm
    | transientFailure m =>
      dsimp only
      rw [ih (tried ++ [c])]
      constructor
      · rintro ⟨pre, c', post, heq, hs, hpre⟩
        refine ⟨c :: pre, c', post, by rw [List.cons_append, heq], hs, ?_⟩
        intro x hx
        rcases List.mem_cons.mp hx with h1 | h1
        · exact ⟨m, by rw [h1, hc]⟩
        · exact hpre x h1
      · rintro ⟨pre, c', post, heq, hs, hpre⟩
        cases pre with
        | nil =>
          simp only [List.nil_append, List.cons.injEq] at heq
          rw [← heq.1, hc] at hs
          simp at hs
        | cons c0 pre' =>
          simp only [List.cons_append, List.cons.injEq] at heq
          exact ⟨pre', c', post, heq.2, hs,
            fun x hx => hpre x (List.mem_cons_of_mem _ hx)⟩

/-- C8: a transient failure moves the loop to the next configuration in
list order; overall success holds exactly when some configuration
preceded only by transient failures succeeds, and a list of configurations
that all fail transiently is exhausted whole with overall failure,
retaining every tried configuration. -/
theorem sendEmail_transient_failover
    (transport : SMTPConfig → DeliveryAttemptResult)
    (configs : List SMTPConfig) :
    ((sendEmailGo transport configs []).1 = true ↔
      ∃ pre c post, configs = pre ++ c :: post ∧ transport c = .success ∧
        ∀ c' ∈ pre, ∃ m, transport c' = .transientFailure m) ∧
    ((∀ c ∈ configs, ∃ m, transport c = .transientFailure m) →
      sendEmailGo transport configs [] = (false, configs)) := by
  refine ⟨sendEmailGo_fst_true_iff transport configs [], ?_⟩
  intro hall
  have h := sendEmailGo_pre_transient transport configs hall [] []
  rw [List.append_nil] at h
  rw [h, sendEmailGo_nil]
  simp

/-- A transport failing transiently on port 25 and succeeding elsewhere. -/
def failThenOkTransport : SMTPConfig → DeliveryAttemptResult := fun c =>
  if c.port = 25 then .transientFailure "timeout" else .success

/-- C8 witness: `[transient, success]` yields overall success, and a list of
two transient failures is exhausted with overall failure, both tried. -/
theorem sendEmail_transient_failover_witness :
    (sendEmailGo failThenOkTransport [smtpPlain25, smtpTLS587] []).1 = true ∧
    sendEmailGo failThenOkTransport [smtpPlain25, smtpPlain25] []
      = (false, [smtpPlain25, smtpPlain25]) :=
  ⟨(sendEmail_transient_failover failThenOkTransport [smtpPlain25, smtpTLS587]).1.mpr
      ⟨[smtpPlain25], smtpTLS587, [], rfl, rfl,
        fun c' h => ⟨"timeout",
          by rw [show c' = smtpPlain25 by simpa using h]; rfl⟩⟩,
   (sendEmail_transient_failover failThenOkTransport [smtpPlain25, smtpPlain25]).2
      (fun c h => ⟨"timeout", by
        rcases List.mem_cons.mp h with h1 | h1
        · rw [h1]; rfl
        · rw [show c = smtpPlain25 by simpa using h1]; rfl⟩)⟩

/-- The configurations actually tried are always an in-order prefix of the
candidate list. -/
theorem sendEmailGo_tried_take (transport : SMTPConfig → DeliveryAttemptResult) :
    ∀ configs tried, ∃ k,
      (sendEmailGo transport configs tried).2 = tried ++ configs.take k := by
  intro configs
  induction configs with
  | nil => intro tried; exact ⟨0, by rw [sendEmailGo_nil]; simp⟩
  | cons c rest ih =>
    intro tried
    rw [sendEmailGo_cons]
    cases hc : transport c with
    | success => exact ⟨1, by dsimp only; simp⟩
    | authFailure => exact ⟨1, by dsimp only; simp⟩
    | transientFailure m =>
      dsimp only
      obtain ⟨k, hk⟩ := ih (tried ++ [c])
      exact ⟨k + 1, by rw [hk]; simp⟩

/-- C10: when the server address contains `"163.com"`, `send_email` tries
the fixed list SSL(465), plain(25), TLS(587) — ignoring the configured
port/SSL/TLS — and otherwise exactly the single configured combination;
the configurations attempted are always an in-order prefix of that list. -/
theorem sendEmail_configs_by_server (server : String) (port : Nat)
    (ssl tls : Bool) :
    (strContains server "163.com" = true →
      buildConfigs server port ssl tls
        = [⟨465, true, false, "SSL(465)"⟩, ⟨25, false, false, "无加密(25)"⟩,
           ⟨587, false, true, "TLS(587)"⟩]) ∧
    (strContains server "163.com" = false →
      buildConfigs server port ssl tls = [⟨port, ssl, tls, origConfigName port⟩]) ∧
    (∀ subject body transport, ∃ k,
      (sendEmail true server port ssl tls subject body transport).2
        = (buildConfigs server port ssl tls).take k) := by
  refine ⟨fun h => by rw [buildConfigs, if_pos h],
    fun h => by rw [buildConfigs, if_neg]; simp [h], ?_⟩
  intro subject body transport
  obtain ⟨k, hk⟩ := sendEmailGo_tried_take transport
    (buildConfigs server port ssl tls) []
  refine ⟨k, ?_⟩
  rw [sendEmail, if_pos rfl, hk]
  simp

/-- C10 witness: a `163.com` server gets the fixed three-entry list however
the port and flags are configured; any other server gets its single
configured combination. -/
theorem sendEmail_configs_by_server_witness :
    buildConfigs "smtp.163.com" 999 true true
      = [⟨465, true, false, "SSL(465)"⟩, ⟨25, false, false, "无加密(25)"⟩,
         ⟨587, false, true, "TLS(587)"⟩] ∧
    buildConfigs "smtp.qq.com" 999 true true
      = [⟨999, true, true, origConfigName 999⟩] :=
  ⟨(sendEmail_configs_by_server "smtp.163.com" 999 true true).1 (by decide),
   (sendEmail_configs_by_server "smtp.qq.com" 999 true true).2.1 (by decide)⟩

end BatchAnalyzer
